import Mathlib

/-!
# Verification of DVID keyspace encoding, identifiers and concurrency governor

Shallow embedding of the Go sources:
* `dvid/distributed.go` — cgo activity tracking and the voxels keyspace
  (KeyType tags, index builders/decoders).
* the core identifier file (`LocalID`, `LocalID32`, `InstanceID`, `RepoID`,
  `VersionID`, `UUID`).
* `server/server_local.go` — engine setup and handler token pool.

Go byte slices are modelled as `List Nat` whose elements are below 256;
unsigned machine integers are `Nat` with explicit reduction modulo `2^w`
where the code relies on wraparound.
-/

namespace DVID

/-- `binary.BigEndian` byte extraction: `beBytes w n` is the `w`-byte
big-endian rendering of `n` (most significant byte first), assuming
`n < 256^w`; defined so that `beBytes (w+1) n = n / 256^w :: beBytes w (n % 256^w)`. -/
def beBytes : Nat → Nat → List Nat
  | 0, _ => []
  | w + 1, n => n / 256 ^ w :: beBytes w (n % 256 ^ w)

/-- `binary.BigEndian.PutUint64 buf v`: the 8 bytes written, namely
`byte(v>>56), …, byte(v)`.  The Go argument is a `uint64`, hence the
reduction modulo `2^64`. -/
def putUint64 (v : Nat) : List Nat :=
  beBytes 8 (v % 2 ^ 64)

/-- `binary.BigEndian.Uint64 b`: big-endian read of the first 8 bytes. -/
def beUint64 (b : List Nat) : Nat :=
  (b.take 8).foldl (fun acc x => acc * 256 + x) 0

/-- Go's builtin `copy(dst, src)`: copies `min (len dst) (len src)` elements
of `src` over the front of `dst`, keeping `dst`'s length. -/
def goCopy (dst src : List Nat) : List Nat :=
  src.take dst.length ++ dst.drop (min dst.length src.length)

theorem goCopy_length (dst src : List Nat) : (goCopy dst src).length = dst.length := by
  simp [goCopy]

theorem goCopy_all (dst src : List Nat) (h : src.length = dst.length) :
    goCopy dst src = src := by
  simp [goCopy, h, List.take_of_length_le (Nat.le_of_eq h)]

theorem beBytes_length (w n : Nat) : (beBytes w n).length = w := by
  induction w generalizing n with
  | zero => rfl
  | succ w ih => simp [beBytes, ih]

theorem putUint64_length (v : Nat) : (putUint64 v).length = 8 :=
  beBytes_length 8 _

/-- Writing into a subslice: `writeSlice buf pos stop src` models
`copy(buf[pos:stop], src)` — the elements of `src` overwrite
`buf[pos:stop]` up to the shorter of the two, and the rest of `buf`
is untouched. -/
def writeSlice (buf : List Nat) (pos stop : Nat) (src : List Nat) : List Nat :=
  buf.take pos ++ goCopy ((buf.drop pos).take (stop - pos)) src ++ buf.drop stop

/-! ## KeyType (voxels keyspace, `distributed.go`)

The Go `KeyType` constants are declared with `iota`:
`KeyUnknown, KeyVoxelBlock, KeyForwardMap, KeyInverseMap, KeySpatialMap,
KeyLabelSpatialMap, KeyLabelSizes, KeyLabelSurface`. -/

def keyUnknown : Nat := 0
def keyVoxelBlock : Nat := 1
def keyForwardMap : Nat := 2
def keyInverseMap : Nat := 3
def keySpatialMap : Nat := 4
def keyLabelSpatialMap : Nat := 5
def keyLabelSizes : Nat := 6
def keyLabelSurface : Nat := 7

/-- `NewVoxelBlockIndexByCoord`: `index[0] = KeyVoxelBlock` followed by the
block-coordinate bytes (`make` allocates `1+len(blockCoord)` bytes and
`copy(index[1:], blockCoord)` fills them exactly). -/
def NewVoxelBlockIndexByCoord (blockCoord : List Nat) : List Nat :=
  keyVoxelBlock :: blockCoord

/-- `NewForwardMapIndex(label, mapping)`: 17 zeroed bytes; `index[0]` is
`KeyForwardMap`, `copy(index[1:9], label)` fills the 8-byte label field
(partially, if `label` is shorter), and `PutUint64(index[9:17], mapping)`
writes the mapping.  Index layout `a+b`. -/
def NewForwardMapIndex (label : List Nat) (mapping : Nat) : List Nat :=
  keyForwardMap :: (goCopy (List.replicate 8 0) label ++ putUint64 mapping)

/-- `NewInverseMapIndex(label, mapping)`: as above with the two 8-byte
fields swapped.  Index layout `b+a`. -/
def NewInverseMapIndex (label : List Nat) (mapping : Nat) : List Nat :=
  keyInverseMap :: (putUint64 mapping ++ goCopy (List.replicate 8 0) label)

/-- `NewSpatialMapIndex(blockIndex, label, mappedLabel)`: allocates
`1 + sz + 8 + 8` zeroed bytes (`sz = len(blockIndex.Bytes())`), writes the
`KeySpatialMap` tag, copies the spatial bytes into `index[1:1+sz]`
(an exact fit), copies `label` into the 8-byte label field only when the
Go slice is non-nil, and writes `mappedLabel` big-endian into the last
8 bytes.  The nilable Go `label []byte` is an `Option (List Nat)`. -/
def NewSpatialMapIndex (indexBytes : List Nat) (label : Option (List Nat))
    (mappedLabel : Nat) : List Nat :=
  let labelField : List Nat :=
    match label with
    | none => List.replicate 8 0
    | some l => goCopy (List.replicate 8 0) l
  keySpatialMap :: (indexBytes ++ labelField ++ putUint64 mappedLabel)

/-- `(index SpatialMapIndex).UpdateSpatialMapIndex(label, mappedLabel)`:
`spatialSize := len(index) - 17`, `i := 1 + spatialSize`; when `label` is
non-nil, `copy(index[i:i+8], label)`; then
`PutUint64(index[i+8:i+16], mappedLabel)`.  Modelled functionally: the
result is the mutated buffer. -/
def UpdateSpatialMapIndex (index : List Nat) (label : Option (List Nat))
    (mappedLabel : Nat) : List Nat :=
  let spatialSize := index.length - 17
  let i := 1 + spatialSize
  let index1 :=
    match label with
    | none => index
    | some l => writeSlice index i (i + 8) l
  writeSlice index1 (i + 8) (i + 16) (putUint64 mappedLabel)

/-- `NewLabelSpatialMapIndex(label, blockBytes)`: tag `KeyLabelSpatialMap`,
8-byte big-endian label, then the raw block bytes.  Index layout `b+s`. -/
def NewLabelSpatialMapIndex (label : Nat) (blockBytes : List Nat) : List Nat :=
  keyLabelSpatialMap :: (putUint64 label ++ blockBytes)

/-- `NewLabelSizesIndex(size, label)`: tag `KeyLabelSizes`, 8-byte
big-endian size, 8-byte big-endian label.  Index layout `v+b`. -/
def NewLabelSizesIndex (size label : Nat) : List Nat :=
  keyLabelSizes :: (putUint64 size ++ putUint64 label)

/-- `NewLabelSurfaceIndex(label)`: tag `KeyLabelSurface` followed by the
8-byte big-endian label. -/
def NewLabelSurfaceIndex (label : Nat) : List Nat :=
  keyLabelSurface :: putUint64 label

/-! ## Decoders -/

/-- Modelled from the spec: `dvid.IndexZYXSize`, the fixed width of the
3D block-coordinate ("ZYX") index, is declared outside `src/`; the spec
describes it only as a fixed-width encoding of a 3D block coordinate.
We take three 4-byte coordinates. -/
def IndexZYXSize : Nat := 12

/-- Errors a decoder can surface.  `ktMismatch` is the
`"Expected ... index, got %d byte instead"` error with expected and actual
type byte; `zyxBadLength` stands for the error wrapped from
`IndexZYX.IndexFromBytes`; `outOfRange` marks a slice access that would
panic in Go (an index shorter than the fixed layout). -/
inductive KeyErr
  | ktMismatch (expected actual : Nat)
  | zyxBadLength (n : Nat)
  | outOfRange
deriving DecidableEq, Repr

/-- Whether a decoder outcome is the KeyType-mismatch error. -/
def isKtMismatch : {α : Type} → Except KeyErr α → Bool
  | _, .error (.ktMismatch _ _) => true
  | _, _ => false

/-- Modelled from the spec: `storage.DataContext.IndexFromKey` (not under
`src/`) extracts the type-specific index portion from a storage key; the
claims quantify over the index portion, so a key is modelled as its index
portion and extraction is the identity. -/
def IndexFromKey (key : List Nat) : List Nat := key

/-- Modelled from the spec: `dvid.IndexZYX.IndexFromBytes` (not under
`src/`) recovers a 3D block coordinate from its fixed-width encoding,
failing on any other length. -/
def IndexZYXFromBytes (b : List Nat) : Except KeyErr (List Nat) :=
  if b.length = IndexZYXSize then .ok b else .error (.zyxBadLength b.length)

/-- `DecodeVoxelBlockKey`: extracts the index, rejects a leading byte other
than `KeyVoxelBlock` with a mismatch error, then recovers the ZYX index
from the remaining bytes.  An empty index would make `index[0]` panic in
Go; modelled as `outOfRange`. -/
def DecodeVoxelBlockKey (key : List Nat) : Except KeyErr (List Nat) :=
  match IndexFromKey key with
  | [] => .error .outOfRange
  | t :: rest =>
    if t ≠ keyVoxelBlock then .error (.ktMismatch keyVoxelBlock t)
    else IndexZYXFromBytes rest

/-- `DecodeSpatialMapKey`: checks the `KeySpatialMap` tag, then reads the
8-byte label at offset `1 + IndexZYXSize` and the 8-byte mapped label
after it.  Slicing past the end panics in Go; modelled as `outOfRange`. -/
def DecodeSpatialMapKey (key : List Nat) : Except KeyErr (List Nat × Nat) :=
  match IndexFromKey key with
  | [] => .error .outOfRange
  | t :: rest =>
    if t ≠ keySpatialMap then .error (.ktMismatch keySpatialMap t)
    else
      let index := t :: rest
      let labelOffset := 1 + IndexZYXSize
      if index.length < labelOffset + 16 then .error .outOfRange
      else
        .ok ((index.drop labelOffset).take 8,
             beUint64 (index.drop (labelOffset + 8)))

/-- `DecodeLabelSpatialMapKey`: checks the `KeyLabelSpatialMap` tag, reads
the 8-byte label at `index[1:9]`, and returns the remaining block bytes. -/
def DecodeLabelSpatialMapKey (key : List Nat) : Except KeyErr (Nat × List Nat) :=
  match IndexFromKey key with
  | [] => .error .outOfRange
  | t :: rest =>
    if t ≠ keyLabelSpatialMap then .error (.ktMismatch keyLabelSpatialMap t)
    else
      let index := t :: rest
      if index.length < 9 then .error .outOfRange
      else .ok (beUint64 (index.drop 1), index.drop 9)

/-- `LabelFromLabelSizesKey`: extracts the index and returns
`BigEndian.Uint64(indexBytes[9:17])`.  Note the source performs no check of
the leading KeyType byte. -/
def LabelFromLabelSizesKey (key : List Nat) : Except KeyErr Nat :=
  let indexBytes := IndexFromKey key
  if indexBytes.length < 17 then .error .outOfRange
  else .ok (beUint64 (indexBytes.drop 9))

/-! ## Identifier system (core types file)

`LocalID` is `uint16`, `LocalID32`/`InstanceID`/`RepoID`/`VersionID` are
32-bit; all are modelled as `Nat` reduced modulo their width on encode. -/

def LocalIDSize : Nat := 2
def LocalID32Size : Nat := 4

/-- `binary.BigEndian.Uint16 b`. -/
def beUint16 (b : List Nat) : Nat :=
  (b.take 2).foldl (fun acc x => acc * 256 + x) 0

/-- `binary.BigEndian.Uint32 b`. -/
def beUint32 (b : List Nat) : Nat :=
  (b.take 4).foldl (fun acc x => acc * 256 + x) 0

/-- `LocalID.Bytes`: 2-byte big-endian encoding via `PutUint16`. -/
def LocalID.Bytes (id : Nat) : List Nat :=
  beBytes 2 (id % 2 ^ 16)

/-- `LocalIDFromBytes`: value from the first two bytes and the number of
bytes used (`LocalIDSize`).  No bounds checking, per the source note. -/
def LocalIDFromBytes (b : List Nat) : Nat × Nat :=
  (beUint16 b, LocalIDSize)

/-- `LocalID32.Bytes`: 4-byte big-endian encoding via `PutUint32`. -/
def LocalID32.Bytes (id : Nat) : List Nat :=
  beBytes 4 (id % 2 ^ 32)

/-- `LocalID32FromBytes`: value and number of bytes used (`LocalID32Size`). -/
def LocalID32FromBytes (b : List Nat) : Nat × Nat :=
  (beUint32 b, LocalID32Size)

/-- `InstanceID.Bytes`: 4-byte big-endian encoding. -/
def InstanceID.Bytes (id : Nat) : List Nat :=
  beBytes 4 (id % 2 ^ 32)

/-- `InstanceIDFromBytes`: returns only the decoded value — unlike
`LocalIDFromBytes`/`LocalID32FromBytes` there is no second return value,
although the source's own doc comment says the number of bytes used is
also returned. -/
def InstanceIDFromBytes (b : List Nat) : Nat :=
  beUint32 b

/-- `RepoID.Bytes`: 4-byte big-endian encoding. -/
def RepoID.Bytes (id : Nat) : List Nat :=
  beBytes 4 (id % 2 ^ 32)

/-- `RepoIDFromBytes`: returns only the decoded value (see
`InstanceIDFromBytes`). -/
def RepoIDFromBytes (b : List Nat) : Nat :=
  beUint32 b

/-- `VersionID.Bytes`: 4-byte big-endian encoding. -/
def VersionID.Bytes (id : Nat) : List Nat :=
  beBytes 4 (id % 2 ^ 32)

/-- `VersionIDFromBytes`: returns only the decoded value (see
`InstanceIDFromBytes`). -/
def VersionIDFromBytes (b : List Nat) : Nat :=
  beUint32 b

/-! ## UUID generation -/

/-- One lowercase hexadecimal digit, `0 ≤ n < 16`. -/
def hexDigit (n : Nat) : Char :=
  if n < 10 then Char.ofNat (48 + n) else Char.ofNat (87 + n)

/-- The two hex digits of one byte, as produced by `%x` formatting. -/
def hexByte (b : Nat) : List Char :=
  [hexDigit (b / 16), hexDigit (b % 16)]

/-- `NewUUID`: calls the external `uuid.NewUUID()` whose outcome is the
parameter `u` (`none` for a nil result, `some bytes` otherwise); if the
result is nil or not 16 bytes long, the nil UUID `""` is returned,
otherwise `fmt.Sprintf("%032x", u)` — two lowercase hex digits per byte
(the zero-padding to width 32 is exact for 16 bytes). -/
def NewUUID (u : Option (List Nat)) : String :=
  match u with
  | none => ""
  | some bytes =>
    if bytes.length ≠ 16 then ""
    else String.mk (bytes.map hexByte).flatten

/-- The nil UUID. -/
def NilUUID : String := ""

/-! ## Native-call (cgo) drain, `BlockOnActiveCgo`

The loop polls the condition `cgoNumActive == 0 && len(cgoActive) == 0`
once per iteration, sleeping one second between polls and giving up once
`waits >= 5`.  The condition over time is abstracted as `done : Nat → Bool`
(`done k` = the condition at the start of iteration `k`); the returned
number is the final `waits` counter, which equals the number of one-second
sleeps performed. -/

def blockOnActiveCgoLoop (done : Nat → Bool) (waits : Nat) : Nat :=
  if done waits then waits
  else if h : 5 ≤ waits then waits
  else blockOnActiveCgoLoop done (waits + 1)
termination_by 5 - waits
decreasing_by omega

/-- `BlockOnActiveCgo`: runs the poll loop from `waits = 0`. -/
def BlockOnActiveCgo (done : Nat → Bool) : Nat :=
  blockOnActiveCgoLoop done 0

/-! ## Engine setup, `server_local.go` `SetupEngines` -/

/-- The three capability probes (`type assertions`) applied to the
key-value engine returned by `local.NewKeyValueStore`. -/
structure KVCaps where
  orderedKVDB : Bool
  orderedKVSetter : Bool
  orderedKVGetter : Bool
deriving DecidableEq

/-- The three capability probes applied to the engine returned by
`NewGraphStore`. -/
structure GraphCaps where
  graphDB : Bool
  graphSetter : Bool
  graphGetter : Bool
deriving DecidableEq

/-- The distinct error outcomes of `SetupEngines`; the six capability
errors correspond to the six `fmt.Errorf` messages naming the missing
capability. -/
inductive SetupErr
  | kvCreate
  | notOrderedKVDB
  | notOrderedKVSetter
  | notOrderedKVGetter
  | graphCreate
  | noGraphDB
  | noGraphSetter
  | noGraphGetter
deriving DecidableEq

/-- `SetupEngines`: creates the key-value engine, probes its three
capabilities in order, creates the graph engine, probes its three
capabilities, and only then sets `Engines.setup = true`.  `setup0` is the
prior value of `Engines.setup`, which every early return leaves untouched;
`kv` and `graph` are the outcomes of the two engine constructors together
with the interface sets their results satisfy.  Returns the resulting
`Engines.setup` flag and the error. -/
def SetupEngines (setup0 : Bool) (kv : Except Unit KVCaps)
    (graph : Except Unit GraphCaps) : Bool × Option SetupErr :=
  match kv with
  | .error _ => (setup0, some .kvCreate)
  | .ok k =>
    if !k.orderedKVDB then (setup0, some .notOrderedKVDB)
    else if !k.orderedKVSetter then (setup0, some .notOrderedKVSetter)
    else if !k.orderedKVGetter then (setup0, some .notOrderedKVGetter)
    else
      match graph with
      | .error _ => (setup0, some .graphCreate)
      | .ok g =>
        if !g.graphDB then (setup0, some .noGraphDB)
        else if !g.graphSetter then (setup0, some .noGraphSetter)
        else if !g.graphGetter then (setup0, some .noGraphGetter)
        else (true, none)

/-- `e` is one of the six capability errors and the capability it names is
indeed absent. -/
def errNamesMissingCap (e : SetupErr) (k : KVCaps) (g : GraphCaps) : Bool :=
  match e with
  | .notOrderedKVDB => !k.orderedKVDB
  | .notOrderedKVSetter => !k.orderedKVSetter
  | .notOrderedKVGetter => !k.orderedKVGetter
  | .noGraphDB => !g.graphDB
  | .noGraphSetter => !g.graphSetter
  | .noGraphGetter => !g.graphGetter
  | _ => false

/-- All six capability probes succeed. -/
def allCaps (k : KVCaps) (g : GraphCaps) : Bool :=
  k.orderedKVDB && k.orderedKVSetter && k.orderedKVGetter &&
    g.graphDB && g.graphSetter && g.graphGetter

/-! ## Handler token pool, `server_local.go`

`HandlerToken = make(chan int, MaxChunkHandlers)` is a buffered channel
used as a counting semaphore; `init` fills it with `MaxChunkHandlers`
tokens.  A buffered channel over identical payloads is modelled by its
capacity and the number of buffered values; a send or receive that would
block yields `none`. -/

structure GoChan where
  cap : Nat
  buf : Nat
deriving DecidableEq

/-- A non-blocking view of `ch <- v`: succeeds exactly when the buffer has
room. -/
def chanSend (c : GoChan) : Option GoChan :=
  if c.buf < c.cap then some ⟨c.cap, c.buf + 1⟩ else none

/-- A non-blocking view of `<-ch`: succeeds exactly when a value is
buffered; a `none` is a receive that blocks. -/
def chanRecv (c : GoChan) : Option GoChan :=
  if 0 < c.buf then some ⟨c.cap, c.buf - 1⟩ else none

/-- The `init` fill loop `for i := 0; i < n; i++ { HandlerToken <- 1 }`. -/
def fillTokens : Nat → GoChan → Option GoChan
  | 0, c => some c
  | n + 1, c =>
    match chanSend c with
    | none => none
    | some c' => fillTokens n c'

/-- `n` successive token acquisitions (receives). -/
def recvTokens : Nat → GoChan → Option GoChan
  | 0, c => some c
  | n + 1, c =>
    match chanRecv c with
    | none => none
    | some c' => recvTokens n c'

/-- The `HandlerToken` channel as `init` leaves it: capacity
`MaxChunkHandlers = N`, filled with `N` tokens. -/
def initHandlerToken (N : Nat) : Option GoChan :=
  fillTokens N ⟨N, 0⟩

/-! ## Helper lemmas -/

theorem writeSlice_at (pre mid suf src : List Nat) :
    writeSlice (pre ++ mid ++ suf) pre.length (pre.length + mid.length) src
      = pre ++ goCopy mid src ++ suf := by
  unfold writeSlice
  rw [List.append_assoc pre mid suf, List.take_left, List.drop_left,
    Nat.add_sub_cancel_left]
  rw [List.take_append_eq_append_take, List.take_of_length_le (Nat.le_refl _),
    Nat.sub_self, List.take_zero, List.append_nil]
  rw [List.drop_append_eq_append_drop]
  rw [List.drop_eq_nil_of_le (by omega), List.nil_append,
    Nat.add_sub_cancel_left, List.drop_left]

theorem beBytes_lt {w m n : Nat} (hmn : m < n) (hn : n < 256 ^ w) :
    List.Lex (· < ·) (beBytes w m) (beBytes w n) := by
  induction w generalizing m n with
  | zero =>
    simp only [pow_zero, Nat.lt_one_iff] at hn
    omega
  | succ w ih =>
    simp only [beBytes]
    rcases Nat.lt_or_ge (m / 256 ^ w) (n / 256 ^ w) with h | h
    · exact List.Lex.rel h
    · have hdle : m / 256 ^ w ≤ n / 256 ^ w := Nat.div_le_div_right (Nat.le_of_lt hmn)
      have hd : m / 256 ^ w = n / 256 ^ w := Nat.le_antisymm hdle h
      rw [hd]
      have hpos : 0 < 256 ^ w := Nat.pos_pow_of_pos w (by omega)
      refine List.Lex.cons (ih ?_ (Nat.mod_lt _ hpos))
      have hm2 := Nat.div_add_mod m (256 ^ w)
      have hn2 := Nat.div_add_mod n (256 ^ w)
      rw [hd] at hm2
      omega

theorem lex_append_of_lex {l₁ l₂ : List Nat} (a b : List Nat)
    (h : List.Lex (· < ·) l₁ l₂) (hlen : l₁.length = l₂.length) :
    List.Lex (· < ·) (l₁ ++ a) (l₂ ++ b) := by
  induction h with
  | nil => simp at hlen
  | cons h ih => exact List.Lex.cons (ih (by simpa using hlen))
  | rel h => exact List.Lex.rel h

theorem putUint64_lt {m n : Nat} (hmn : m < n) (hn : n < 2 ^ 64) :
    List.Lex (· < ·) (putUint64 m) (putUint64 n) := by
  have h64 : (256 : Nat) ^ 8 = 2 ^ 64 := by norm_num
  unfold putUint64
  rw [Nat.mod_eq_of_lt (lt_trans hmn hn), Nat.mod_eq_of_lt hn]
  exact beBytes_lt hmn (by omega)

theorem writeSlice_split (pre mid suf src : List Nat) (pos stop : Nat)
    (hpos : pos = pre.length) (hstop : stop = pre.length + mid.length) :
    writeSlice (pre ++ mid ++ suf) pos stop src = pre ++ goCopy mid src ++ suf := by
  subst hpos hstop
  exact writeSlice_at pre mid suf src

theorem newSpatialMap_some (coord l : List Nat) (m : Nat) :
    NewSpatialMapIndex coord (some l) m
      = (keySpatialMap :: coord) ++ goCopy (List.replicate 8 0) l ++ putUint64 m := by
  simp [NewSpatialMapIndex]

theorem newSpatialMap_none (coord : List Nat) (m : Nat) :
    NewSpatialMapIndex coord none m
      = (keySpatialMap :: coord) ++ List.replicate 8 0 ++ putUint64 m := by
  simp [NewSpatialMapIndex]

theorem update_some (pre lab m8 lb : List Nat) (mb : Nat) (hpre : 0 < pre.length)
    (hlab : lab.length = 8) (hm : m8.length = 8) :
    UpdateSpatialMapIndex (pre ++ lab ++ m8) (some lb) mb
      = pre ++ goCopy lab lb ++ putUint64 mb := by
  simp only [UpdateSpatialMapIndex]
  rw [writeSlice_split pre lab m8 lb _ _
    (by simp [List.length_append, hlab, hm]; omega)
    (by simp [List.length_append, hlab, hm]; omega)]
  rw [show pre ++ goCopy lab lb ++ m8 = (pre ++ goCopy lab lb) ++ m8 ++ [] by
    simp [List.append_assoc]]
  rw [writeSlice_split (pre ++ goCopy lab lb) m8 [] (putUint64 mb) _ _
    (by simp [List.length_append, goCopy_length, hlab, hm]; omega)
    (by simp [List.length_append, goCopy_length, hlab, hm]; omega)]
  rw [goCopy_all m8 (putUint64 mb) (by rw [putUint64_length, hm])]
  simp [List.append_assoc]

theorem update_none (pre lab m8 : List Nat) (mb : Nat) (hpre : 0 < pre.length)
    (hlab : lab.length = 8) (hm : m8.length = 8) :
    UpdateSpatialMapIndex (pre ++ lab ++ m8) none mb
      = pre ++ lab ++ putUint64 mb := by
  simp only [UpdateSpatialMapIndex]
  rw [show pre ++ lab ++ m8 = (pre ++ lab) ++ m8 ++ [] by simp [List.append_assoc]]
  rw [writeSlice_split (pre ++ lab) m8 [] (putUint64 mb) _ _
    (by simp [List.length_append, hlab, hm]; omega)
    (by simp [List.length_append, hlab, hm]; omega)]
  rw [goCopy_all m8 (putUint64 mb) (by rw [putUint64_length, hm])]
  simp [List.append_assoc]

/-! ## Claims -/

/-- C1: `NewForwardMapIndex` on the 8-byte big-endian label of `1` and
mapping `2` is exactly the 17 bytes
`[0x02, 00…00 01, 00…00 02]`, and the `KeyType` enumeration assigns
`Unknown = 0`, `VoxelBlock = 1`, `ForwardMap = 2`. -/
theorem C1_forwardMapIndex_concrete :
    NewForwardMapIndex [0, 0, 0, 0, 0, 0, 0, 1] 2
        = [2, 0, 0, 0, 0, 0, 0, 0, 1, 0, 0, 0, 0, 0, 0, 0, 2]
      ∧ keyUnknown = 0 ∧ keyVoxelBlock = 1 ∧ keyForwardMap = 2 := by
  refine ⟨?_, rfl, rfl, rfl⟩
  decide

/-- C2 counterexample: the claim says the LabelSizes decoder
`LabelFromLabelSizesKey` returns a KeyType-mismatch error on a key whose
index has the wrong leading byte; on a ForwardMap-built index (leading
byte `2`, not `KeyLabelSizes = 6`) it instead returns the payload with no
error, because the source performs no KeyType check there. -/
theorem C2_labelSizes_no_check :
    LabelFromLabelSizesKey (NewForwardMapIndex (putUint64 1) 3) = .ok 3 := by
  rfl

/-- C2 (amended): `DecodeVoxelBlockKey`, `DecodeSpatialMapKey` and
`DecodeLabelSpatialMapKey` return the KeyType-mismatch error carrying the
expected and actual type byte exactly when the leading index byte differs
from their expected KeyType, and never return a mismatch error when it
matches; `LabelFromLabelSizesKey` performs no KeyType validation and never
returns a mismatch error. -/
theorem C2_decoder_type_checks (t : Nat) (rest : List Nat) :
    (t ≠ keyVoxelBlock →
      DecodeVoxelBlockKey (t :: rest) = .error (.ktMismatch keyVoxelBlock t))
    ∧ (t = keyVoxelBlock → isKtMismatch (DecodeVoxelBlockKey (t :: rest)) = false)
    ∧ (t ≠ keySpatialMap →
      DecodeSpatialMapKey (t :: rest) = .error (.ktMismatch keySpatialMap t))
    ∧ (t = keySpatialMap → isKtMismatch (DecodeSpatialMapKey (t :: rest)) = false)
    ∧ (t ≠ keyLabelSpatialMap →
      DecodeLabelSpatialMapKey (t :: rest)
        = .error (.ktMismatch keyLabelSpatialMap t))
    ∧ (t = keyLabelSpatialMap →
      isKtMismatch (DecodeLabelSpatialMapKey (t :: rest)) = false)
    ∧ isKtMismatch (LabelFromLabelSizesKey (t :: rest)) = false := by
  refine ⟨fun h => ?_, fun h => ?_, fun h => ?_, fun h => ?_, fun h => ?_,
    fun h => ?_, ?_⟩
  · simp [DecodeVoxelBlockKey, IndexFromKey, h]
  · subst h
    simp only [DecodeVoxelBlockKey, IndexFromKey]
    rw [if_neg (by simp)]
    unfold IndexZYXFromBytes
    split <;> rfl
  · simp [DecodeSpatialMapKey, IndexFromKey, h]
  · subst h
    simp only [DecodeSpatialMapKey, IndexFromKey]
    rw [if_neg (by simp)]
    split <;> rfl
  · simp [DecodeLabelSpatialMapKey, IndexFromKey, h]
  · subst h
    simp only [DecodeLabelSpatialMapKey, IndexFromKey]
    rw [if_neg (by simp)]
    split <;> rfl
  · simp only [LabelFromLabelSizesKey, IndexFromKey]
    split <;> rfl

/-- C2 witness: the amended statement at concrete keys — leading byte `6`
fed to the three checking decoders, their own tags fed back, and a
ForwardMap tag fed to the LabelSizes decoder. -/
theorem C2_decoder_type_checks_witness :
    DecodeVoxelBlockKey (6 :: List.replicate 12 0)
        = .error (.ktMismatch keyVoxelBlock 6)
    ∧ isKtMismatch (DecodeVoxelBlockKey (1 :: List.replicate 12 0)) = false
    ∧ DecodeSpatialMapKey (6 :: List.replicate 28 0)
        = .error (.ktMismatch keySpatialMap 6)
    ∧ isKtMismatch (DecodeSpatialMapKey (4 :: List.replicate 28 0)) = false
    ∧ DecodeLabelSpatialMapKey (6 :: List.replicate 28 0)
        = .error (.ktMismatch keyLabelSpatialMap 6)
    ∧ isKtMismatch (DecodeLabelSpatialMapKey (5 :: List.replicate 28 0)) = false
    ∧ isKtMismatch (LabelFromLabelSizesKey (2 :: List.replicate 28 0)) = false :=
  ⟨(C2_decoder_type_checks 6 (List.replicate 12 0)).1 (by decide),
   (C2_decoder_type_checks 1 (List.replicate 12 0)).2.1 rfl,
   (C2_decoder_type_checks 6 (List.replicate 28 0)).2.2.1 (by decide),
   (C2_decoder_type_checks 4 (List.replicate 28 0)).2.2.2.1 rfl,
   (C2_decoder_type_checks 6 (List.replicate 28 0)).2.2.2.2.1 (by decide),
   (C2_decoder_type_checks 5 (List.replicate 28 0)).2.2.2.2.2.1 rfl,
   (C2_decoder_type_checks 2 (List.replicate 28 0)).2.2.2.2.2.2⟩

/-- C4: the label- and size-first builders are strictly monotone under
byte-lexicographic comparison: `a1 < a2` (as unsigned 64-bit values) gives
`NewLabelSurfaceIndex a1 < NewLabelSurfaceIndex a2`, and `s1 < s2` gives
`NewLabelSizesIndex s1 lbl < NewLabelSizesIndex s2 lbl` for any fixed
label. -/
theorem C4_order_preservation (a1 a2 s1 s2 lbl : Nat)
    (h1 : a1 < a2) (h2 : a2 < 2 ^ 64) (h3 : s1 < s2) (h4 : s2 < 2 ^ 64) :
    List.Lex (· < ·) (NewLabelSurfaceIndex a1) (NewLabelSurfaceIndex a2)
    ∧ List.Lex (· < ·) (NewLabelSizesIndex s1 lbl) (NewLabelSizesIndex s2 lbl) := by
  constructor
  · exact List.Lex.cons (putUint64_lt h1 h2)
  · exact List.Lex.cons (lex_append_of_lex _ _ (putUint64_lt h3 h4)
      (by rw [putUint64_length, putUint64_length]))

/-- C3: building a spatial map index with `(coord, labelA, mapA)` then
updating in place with `(labelB, mapB)` yields bytes identical to building
fresh with `(coord, labelB, mapB)`, for 8-byte non-nil labels. -/
theorem C3_update_refines_build (coord la lb : List Nat) (ma mb : Nat)
    (_hla : la.length = 8) (hlb : lb.length = 8) :
    UpdateSpatialMapIndex (NewSpatialMapIndex coord (some la) ma) (some lb) mb
      = NewSpatialMapIndex coord (some lb) mb := by
  rw [newSpatialMap_some, newSpatialMap_some]
  rw [update_some (keySpatialMap :: coord) _ _ lb mb (by simp)
    (by rw [goCopy_length, List.length_replicate]) (putUint64_length ma)]
  rw [goCopy_all _ lb (by rw [hlb, goCopy_length, List.length_replicate]),
    goCopy_all _ lb (by rw [hlb, List.length_replicate])]

/-- C3 witness: the update/rebuild agreement at a concrete 2-byte
coordinate, labels `1` and `2`, mappings `3` and `4`. -/
theorem C3_update_refines_build_witness :
    UpdateSpatialMapIndex
        (NewSpatialMapIndex [10, 11] (some [0, 0, 0, 0, 0, 0, 0, 1]) 3)
        (some [0, 0, 0, 0, 0, 0, 0, 2]) 4
      = NewSpatialMapIndex [10, 11] (some [0, 0, 0, 0, 0, 0, 0, 2]) 4 :=
  C3_update_refines_build [10, 11] _ _ 3 4 rfl rfl

/-- C9: on any index built by `NewSpatialMapIndex`, the in-place update
never changes the leading key-type byte or the spatial-coordinate prefix;
with a nil label it also leaves the stored 8 label bytes unchanged and
rewrites only the trailing 8-byte mapping field; and `NewSpatialMapIndex`
with a nil label zero-fills its label field. -/
theorem C9_update_frame (coord : List Nat) (labelA : Option (List Nat))
    (ma : Nat) (labelB : Option (List Nat)) (mb : Nat) :
    ((UpdateSpatialMapIndex (NewSpatialMapIndex coord labelA ma) labelB mb).take
        (1 + coord.length)
      = (NewSpatialMapIndex coord labelA ma).take (1 + coord.length))
    ∧ (((UpdateSpatialMapIndex (NewSpatialMapIndex coord labelA ma) none mb).drop
          (1 + coord.length)).take 8
      = ((NewSpatialMapIndex coord labelA ma).drop (1 + coord.length)).take 8)
    ∧ ((UpdateSpatialMapIndex (NewSpatialMapIndex coord labelA ma) none mb).drop
        (1 + coord.length + 8)
      = putUint64 mb)
    ∧ (((NewSpatialMapIndex coord none ma).drop (1 + coord.length)).take 8
      = List.replicate 8 0) := by
  have hpl : (keySpatialMap :: coord).length = 1 + coord.length := by
    simp [Nat.add_comm]
  have hfield : ∀ (labF : List Nat) (mb' : Nat), labF.length = 8 →
      UpdateSpatialMapIndex ((keySpatialMap :: coord) ++ labF ++ putUint64 ma) none mb'
        = (keySpatialMap :: coord) ++ labF ++ putUint64 mb' := fun labF mb' hF =>
    update_none _ _ _ mb' (by simp) hF (putUint64_length ma)
  have hdecomp : ∃ labF : List Nat, labF.length = 8 ∧
      NewSpatialMapIndex coord labelA ma
        = (keySpatialMap :: coord) ++ labF ++ putUint64 ma := by
    cases labelA with
    | none =>
      exact ⟨List.replicate 8 0, by simp, newSpatialMap_none coord ma⟩
    | some l =>
      exact ⟨goCopy (List.replicate 8 0) l,
        by rw [goCopy_length, List.length_replicate], newSpatialMap_some coord l ma⟩
  obtain ⟨labF, hF, hEq⟩ := hdecomp
  have hupdF : ∀ lb mb', ∃ labF' : List Nat, labF'.length = 8 ∧
      UpdateSpatialMapIndex (NewSpatialMapIndex coord labelA ma) lb mb'
        = (keySpatialMap :: coord) ++ labF' ++ putUint64 mb' ∧
        (lb = none → labF' = labF) := by
    intro lb mb'
    cases lb with
    | none =>
      exact ⟨labF, hF, by rw [hEq]; exact hfield labF mb' hF, fun _ => rfl⟩
    | some l =>
      refine ⟨goCopy labF l, by rw [goCopy_length, hF], ?_, by simp⟩
      rw [hEq]
      exact update_some _ _ _ l mb' (by simp) hF (putUint64_length ma)
  refine ⟨?_, ?_, ?_, ?_⟩
  · obtain ⟨labF', _, hU, _⟩ := hupdF labelB mb
    rw [hU, hEq, ← hpl, List.append_assoc, List.append_assoc,
      List.take_left, List.take_left]
  · obtain ⟨labF', _, hU, hsame⟩ := hupdF none mb
    rw [hU, hsame rfl, hEq, ← hpl, List.append_assoc, List.append_assoc,
      List.drop_left, List.drop_left, ← hF, List.take_left, List.take_left]
  · obtain ⟨labF', hF', hU, hsame⟩ := hupdF none mb
    rw [hU, hsame rfl]
    rw [show (keySpatialMap :: coord) ++ labF ++ putUint64 mb
        = ((keySpatialMap :: coord) ++ labF) ++ putUint64 mb by
      simp [List.append_assoc]]
    rw [show 1 + coord.length + 8 = ((keySpatialMap :: coord) ++ labF).length by
      simp [hF]; omega]
    exact List.drop_left _ _
  · rw [newSpatialMap_none, ← hpl, List.append_assoc, List.drop_left]
    exact List.take_left' (by simp)

/-- C4 witness: strict lexicographic growth at labels `1 < 2` and sizes
`3 < 4`. -/
theorem C4_order_preservation_witness :
    List.Lex (· < ·) (NewLabelSurfaceIndex 1) (NewLabelSurfaceIndex 2)
    ∧ List.Lex (· < ·) (NewLabelSizesIndex 3 9) (NewLabelSizesIndex 4 9) :=
  C4_order_preservation 1 2 3 4 9 (by decide) (by norm_num) (by decide)
    (by norm_num)

/-- Lowercase-hex character test: a digit or one of `a`–`f`. -/
def isHexChar (c : Char) : Bool :=
  (decide (48 ≤ c.toNat) && decide (c.toNat ≤ 57))
    || (decide (97 ≤ c.toNat) && decide (c.toNat ≤ 102))

theorem hexDigit_isHex {n : Nat} (h : n < 16) : isHexChar (hexDigit n) = true := by
  interval_cases n <;> decide

theorem hex_flatten_length (l : List Nat) :
    ((l.map hexByte).flatten).length = 2 * l.length := by
  induction l with
  | nil => rfl
  | cons b tl ih => simp [hexByte, ih]; omega

/-- C5 evaluation at the failing input family: the encode/decode round
trips hold for all five identifier kinds, and the byte count is part of
the decoder's result only for `LocalID` and `LocalID32` —
`InstanceIDFromBytes`, `RepoIDFromBytes` and `VersionIDFromBytes` return
a bare value, although their doc comments promise the number of bytes
used as well. -/
theorem C5_id_decoders_eval :
    LocalIDFromBytes (LocalID.Bytes 300) = (300, 2)
    ∧ LocalID32FromBytes (LocalID32.Bytes 70000) = (70000, 4)
    ∧ InstanceIDFromBytes (InstanceID.Bytes 7) = 7
    ∧ RepoIDFromBytes (RepoID.Bytes 9) = 9
    ∧ VersionIDFromBytes (VersionID.Bytes 11) = 11 :=
  ⟨rfl, rfl, rfl, rfl, rfl⟩

/-- C6: `NewUUID` returns the nil UUID `""` exactly when the underlying
random generation fails (`none`) or yields a value that is not 16 bytes;
any other result is a 32-character string of lowercase hexadecimal
digits.  `u` is the outcome of the external `uuid.NewUUID()` call and its
elements are bytes. -/
theorem C6_newUUID (u : Option (List Nat))
    (hbytes : ∀ l, u = some l → ∀ b ∈ l, b < 256) :
    (NewUUID u = NilUUID ↔ u = none ∨ ∃ l, u = some l ∧ l.length ≠ 16)
    ∧ (NewUUID u ≠ NilUUID →
        (NewUUID u).length = 32 ∧ ∀ c ∈ (NewUUID u).data, isHexChar c = true) := by
  cases u with
  | none => simp [NewUUID, NilUUID]
  | some l =>
    by_cases h16 : l.length = 16
    · have hne : NewUUID (some l) ≠ NilUUID := by
        simp only [NewUUID, NilUUID, h16]
        rw [if_neg (by omega)]
        intro hcontra
        have : ((l.map hexByte).flatten).length = 0 := by
          have := congrArg String.length hcontra
          simpa [String.length] using this
        rw [hex_flatten_length, h16] at this
        omega
      refine ⟨⟨fun h => absurd h hne, ?_⟩, fun _ => ⟨?_, ?_⟩⟩
      · rintro (h | ⟨l', hl', hne16⟩)
        · exact Option.noConfusion h
        · cases hl'
          exact absurd h16 hne16
      · simp only [NewUUID, NilUUID, h16]
        rw [if_neg (by omega)]
        show ((l.map hexByte).flatten).length = 32
        rw [hex_flatten_length, h16]
      · intro c hc
        simp only [NewUUID, h16] at hc
        rw [if_neg (by omega)] at hc
        have hc' : c ∈ (l.map hexByte).flatten := hc
        rw [List.mem_flatten] at hc'
        obtain ⟨cs, hcs, hccs⟩ := hc'
        rw [List.mem_map] at hcs
        obtain ⟨b, hbl, rfl⟩ := hcs
        have hb : b < 256 := hbytes l rfl b hbl
        have : c = hexDigit (b / 16) ∨ c = hexDigit (b % 16) := by
          simpa [hexByte] using hccs
        rcases this with rfl | rfl
        · exact hexDigit_isHex (by omega)
        · exact hexDigit_isHex (Nat.mod_lt _ (by omega))
    · have : NewUUID (some l) = NilUUID := by simp [NewUUID, NilUUID, h16]
      rw [this]
      refine ⟨⟨fun _ => Or.inr ⟨l, rfl, h16⟩, fun _ => rfl⟩, fun h => absurd rfl h⟩

/-- C6 witness: the all-zero 16-byte generation result yields the
32-character string of `0` digits, which is not the nil UUID. -/
theorem C6_newUUID_witness :
    (NewUUID (some (List.replicate 16 0)) = NilUUID ↔
      some (List.replicate 16 0) = none
      ∨ ∃ l, some (List.replicate 16 0) = some l ∧ l.length ≠ 16)
    ∧ (NewUUID (some (List.replicate 16 0)) ≠ NilUUID →
        (NewUUID (some (List.replicate 16 0))).length = 32
        ∧ ∀ c ∈ (NewUUID (some (List.replicate 16 0))).data,
            isHexChar c = true) :=
  C6_newUUID (some (List.replicate 16 0)) (by
    intro l hl b hb
    cases hl
    rw [List.eq_of_mem_replicate hb]
    omega)

/-- C7: the native-call drain always terminates.  If the drain condition
(`cgoNumActive == 0 && len(cgoActive) == 0`) never holds, the loop returns
after exactly 5 one-second poll sleeps (about 5 seconds elapsed); if it
already holds at the first check, the loop returns immediately with no
sleep. -/
theorem C7_drain_bound (done : Nat → Bool) :
    ((∀ k, done k = false) → BlockOnActiveCgo done = 5)
    ∧ (done 0 = true → BlockOnActiveCgo done = 0) := by
  constructor
  · intro hdone
    have h5 : blockOnActiveCgoLoop done 5 = 5 := by
      rw [blockOnActiveCgoLoop]
      simp [hdone]
    have step : ∀ w, w < 5 →
        blockOnActiveCgoLoop done w = blockOnActiveCgoLoop done (w + 1) := by
      intro w hw
      rw [blockOnActiveCgoLoop]
      simp [hdone, Nat.not_le.mpr hw]
    show blockOnActiveCgoLoop done 0 = 5
    rw [step 0 (by omega), step 1 (by omega), step 2 (by omega),
      step 3 (by omega), step 4 (by omega), h5]
  · intro h0
    show blockOnActiveCgoLoop done 0 = 0
    rw [blockOnActiveCgoLoop]
    simp [h0]

/-- C7 witness: a permanently false condition gives exactly 5 polls; a
condition true at the outset returns with none. -/
theorem C7_drain_bound_witness :
    BlockOnActiveCgo (fun _ => false) = 5
    ∧ BlockOnActiveCgo (fun _ => true) = 0 :=
  ⟨(C7_drain_bound (fun _ => false)).1 (fun _ => rfl),
   (C7_drain_bound (fun _ => true)).2 rfl⟩

set_option maxHeartbeats 3200000 in
/-- C8: `SetupEngines` returns `nil` error and sets `Engines.setup` to
`true` exactly when both engines are created and all six capability
probes succeed; whenever both engines are created but some capability is
missing it leaves the setup flag at its prior value and returns an error
naming a capability that is indeed missing. -/
theorem C8_setupEngines (setup0 : Bool) (kv : Except Unit KVCaps)
    (graph : Except Unit GraphCaps) :
    (SetupEngines setup0 kv graph = (true, none) ↔
      ∃ k g, kv = .ok k ∧ graph = .ok g ∧ allCaps k g = true)
    ∧ (∀ k g, kv = .ok k → graph = .ok g → allCaps k g = false →
        (SetupEngines setup0 kv graph).1 = setup0
        ∧ ∃ e, (SetupEngines setup0 kv graph).2 = some e
            ∧ errNamesMissingCap e k g = true) := by
  cases kv with
  | error u => simp [SetupEngines]
  | ok k =>
    cases graph with
    | error u =>
      obtain ⟨a, b, c⟩ := k
      cases a <;> cases b <;> cases c <;>
        simp [SetupEngines, allCaps, errNamesMissingCap]
    | ok g =>
      obtain ⟨a, b, c⟩ := k
      obtain ⟨d, e, f⟩ := g
      cases a <;> cases b <;> cases c <;> cases d <;> cases e <;> cases f <;>
        simp [SetupEngines, allCaps, errNamesMissingCap]

/-- C8 witness: a key-value engine lacking the setter capability leaves
the setup flag false and yields an error naming a missing capability. -/
theorem C8_setupEngines_witness :
    (SetupEngines false (.ok ⟨true, false, true⟩) (.ok ⟨true, true, true⟩)).1
        = false
    ∧ ∃ e, (SetupEngines false (.ok ⟨true, false, true⟩)
          (.ok ⟨true, true, true⟩)).2 = some e
        ∧ errNamesMissingCap e ⟨true, false, true⟩ ⟨true, true, true⟩ = true :=
  (C8_setupEngines false (.ok ⟨true, false, true⟩)
    (.ok ⟨true, true, true⟩)).2 ⟨true, false, true⟩ ⟨true, true, true⟩ rfl rfl rfl

theorem fillTokens_fills (N : Nat) :
    ∀ n b, b + n ≤ N → fillTokens n ⟨N, b⟩ = some ⟨N, b + n⟩ := by
  intro n
  induction n with
  | zero => intro b h; rfl
  | succ n ih =>
    intro b h
    have hs : chanSend ⟨N, b⟩ = some ⟨N, b + 1⟩ := by
      unfold chanSend
      dsimp only
      rw [if_pos (by omega)]
    show (match chanSend ⟨N, b⟩ with
      | none => none
      | some c' => fillTokens n c') = some ⟨N, b + (n + 1)⟩
    rw [hs]
    dsimp only
    rw [ih (b + 1) (by omega)]
    have harith : b + 1 + n = b + (n + 1) := by omega
    rw [harith]

theorem recvTokens_drains (N : Nat) :
    ∀ n b, n ≤ b → recvTokens n ⟨N, b⟩ = some ⟨N, b - n⟩ := by
  intro n
  induction n with
  | zero => intro b h; rfl
  | succ n ih =>
    intro b h
    have hs : chanRecv ⟨N, b⟩ = some ⟨N, b - 1⟩ := by
      unfold chanRecv
      dsimp only
      rw [if_pos (by omega)]
    show (match chanRecv ⟨N, b⟩ with
      | none => none
      | some c' => recvTokens n c') = some ⟨N, b - (n + 1)⟩
    rw [hs]
    dsimp only
    rw [ih (b - 1) (by omega)]
    have harith : b - 1 - n = b - (n + 1) := by omega
    rw [harith]

/-- C10: with `HandlerToken` initialized by `init` to hold
`N = MaxChunkHandlers` tokens, `N` successive acquisitions all succeed
without blocking, draining the pool; an `(N+1)`-th receive would block
(`none`); and once one token is released (sent back) the pending receive
proceeds. -/
theorem C10_handler_tokens (N : Nat) (hN : 0 < N) :
    initHandlerToken N = some ⟨N, N⟩
    ∧ recvTokens N ⟨N, N⟩ = some ⟨N, 0⟩
    ∧ chanRecv ⟨N, 0⟩ = none
    ∧ chanSend ⟨N, 0⟩ = some ⟨N, 1⟩
    ∧ chanRecv ⟨N, 1⟩ = some ⟨N, 0⟩ := by
  refine ⟨?_, ?_, ?_, ?_, ?_⟩
  · have := fillTokens_fills N N 0 (by omega)
    simpa [initHandlerToken] using this
  · have := recvTokens_drains N N N (by omega)
    simpa using this
  · unfold chanRecv
    dsimp only
    rw [if_neg (by omega)]
  · unfold chanSend
    dsimp only
    rw [if_pos (by omega)]
  · unfold chanRecv
    dsimp only
    rw [if_pos (by omega)]

/-- C10 witness: the token-pool scenario at pool size 4. -/
theorem C10_handler_tokens_witness :
    initHandlerToken 4 = some ⟨4, 4⟩
    ∧ recvTokens 4 ⟨4, 4⟩ = some ⟨4, 0⟩
    ∧ chanRecv ⟨4, 0⟩ = none
    ∧ chanSend ⟨4, 0⟩ = some ⟨4, 1⟩
    ∧ chanRecv ⟨4, 1⟩ = some ⟨4, 0⟩ :=
  C10_handler_tokens 4 (by decide)

end DVID

